import Mathlib

/-!
Verification of the core logic of the `etf` dashboard repository
(`dashboard.py`): the transaction-ledger cost engine, the valuation-series
loader with its rolling P/E averages, the date lookup with forward fill,
the trade-signal ladder, and the P/L estimator.

Python floats are modelled as rationals (`ℚ`), `None`/`NaN`-bearing values
as `Option ℚ`, dates as integer day numbers, and dict-backed transaction
records as a structure with optional fields (a missing key is `none`).
-/

/-- A ledger transaction record, as stored in `history`.  `unit`, `price`,
`pe` and `close` model the dict entries, which may be absent or null. -/
structure Transaction where
  date : Int := 0
  type : String := ""
  unit : Option ℚ := none
  price : Option ℚ := none
  pe : Option ℚ := none
  close : Option ℚ := none
deriving DecidableEq, Repr

/-- One step of the replay loop in `calculate_index_cost` (dashboard.py
lines 176-194).  The accumulator is `(total_units, total_cost)`.  A missing
`unit` key defaults to `1`, a missing `price` key defaults to `0`. -/
def costStep (acc : ℚ × ℚ) (transaction : Transaction) : ℚ × ℚ :=
  let unit := transaction.unit.getD 1
  let price := transaction.price.getD 0
  if transaction.type = "买入" then
    (acc.1 + unit, acc.2 + price * unit)
  else if transaction.type = "卖出" then
    if 0 < acc.1 then
      let avg_cost_per_unit := acc.2 / acc.1
      let new_cost := acc.2 - avg_cost_per_unit * unit
      let new_units := acc.1 - unit
      if new_units < 1 / 1000000 then (0, 0) else (new_units, new_cost)
    else acc
  else acc

/-- `calculate_index_cost` (dashboard.py lines 166-195): replay the full
history from `(0, 0)` and clamp both components at zero on return. -/
def calculate_index_cost (history : List Transaction) : ℚ × ℚ :=
  let r := history.foldl costStep (0, 0)
  (max 0 r.1, max 0 r.2)

/-- C2: `calculate_index_cost` is a left fold over the history in list order
starting from `(units_held, total_cost) = (0, 0)`; a Buy performs
`total_cost += price*unit; units_held += unit`; a Sell with positive units
deducts at the running average cost and snaps both components to exactly
zero when the resulting units fall below the epsilon `1e-6`; a Sell replayed
at zero units leaves the state unchanged; and the history
Buy(unit 10, price 100), Buy(unit 10, price 200), Sell(unit 10) yields
units 10 and cost 1500 (average cost, not FIFO). -/
theorem calculate_index_cost_spec :
    (∀ history : List Transaction, calculate_index_cost history =
      (max 0 (history.foldl costStep (0, 0)).1, max 0 (history.foldl costStep (0, 0)).2))
    ∧ (∀ (u c : ℚ) (t : Transaction), t.type = "买入" →
        costStep (u, c) t = (u + t.unit.getD 1, c + t.price.getD 0 * t.unit.getD 1))
    ∧ (∀ (u c : ℚ) (t : Transaction), t.type = "卖出" → 0 < u →
        ¬ (u - t.unit.getD 1 < 1 / 1000000) →
        costStep (u, c) t = (u - t.unit.getD 1, c - c / u * t.unit.getD 1))
    ∧ (∀ (u c : ℚ) (t : Transaction), t.type = "卖出" → 0 < u →
        u - t.unit.getD 1 < 1 / 1000000 →
        costStep (u, c) t = (0, 0))
    ∧ (∀ (c : ℚ) (t : Transaction), t.type = "卖出" →
        costStep (0, c) t = (0, c))
    ∧ calculate_index_cost
        [⟨0, "买入", some 10, some 100, none, none⟩,
         ⟨0, "买入", some 10, some 200, none, none⟩,
         ⟨0, "卖出", some 10, none, none, none⟩] = (10, 1500) := by
  refine ⟨fun history => rfl, ?_, ?_, ?_, ?_, ?_⟩
  · intro u c t ht
    simp [costStep, ht]
  · intro u c t ht hu hsnap
    have hbuy : ¬ t.type = "买入" := by rw [ht]; decide
    simp only [costStep, if_neg hbuy, if_pos ht, if_pos hu, if_neg hsnap]
  · intro u c t ht hu hsnap
    have hbuy : ¬ t.type = "买入" := by rw [ht]; decide
    simp only [costStep, if_neg hbuy, if_pos ht, if_pos hu, if_pos hsnap]
  · intro c t ht
    have hbuy : ¬ t.type = "买入" := by rw [ht]; decide
    have hz : ¬ ((0 : ℚ) < 0) := lt_irrefl 0
    simp only [costStep, if_neg hbuy, if_pos ht, if_neg hz]
  · norm_num [calculate_index_cost, List.foldl, costStep]
    rw [if_neg (by decide : ¬ ("卖出" = "买入"))]
    norm_num

/-- Witness for C2: the Sell step of the worked example, applied at the
concrete running state `(20, 3000)` reached after the two Buys. -/
theorem calculate_index_cost_spec_witness :
    (0 : ℚ) < 20 ∧
    costStep (20, 3000) ⟨0, "卖出", some 10, none, none, none⟩ = (10, 1500) := by
  constructor
  · norm_num
  · have h := calculate_index_cost_spec.2.2.1 20 3000
      ⟨0, "卖出", some 10, none, none, none⟩ rfl (by norm_num) (by norm_num)
    exact h.trans (by norm_num)

/-- C4: for every finite transaction history, including oversells and
arbitrary field values, the pair returned by `calculate_index_cost`
satisfies `units_held ≥ 0` and `total_cost ≥ 0`. -/
theorem calculate_index_cost_nonneg (history : List Transaction) :
    0 ≤ (calculate_index_cost history).1 ∧ 0 ≤ (calculate_index_cost history).2 := by
  unfold calculate_index_cost
  exact ⟨le_max_left 0 _, le_max_left 0 _⟩

/-- C10: `calculate_index_cost` never rejects or skips a malformed record: a
record without the `unit` key contributes with `unit = 1`, a record without
the `price` key contributes with `price = 0` (a Buy then adds its units at
zero cost), and a record whose `type` is neither Buy nor Sell leaves the
running state unchanged. -/
theorem calculate_index_cost_malformed :
    (∀ (u c : ℚ) (t : Transaction), t.type = "买入" → t.unit = none →
      costStep (u, c) t = (u + 1, c + t.price.getD 0 * 1))
    ∧ (∀ (u c : ℚ) (t : Transaction), t.type = "买入" → t.price = none →
      costStep (u, c) t = (u + t.unit.getD 1, c))
    ∧ (∀ (u c : ℚ) (t : Transaction), t.type ≠ "买入" → t.type ≠ "卖出" →
      costStep (u, c) t = (u, c)) := by
  refine ⟨?_, ?_, ?_⟩
  · intro u c t ht hu
    simp [costStep, ht, hu]
  · intro u c t ht hp
    simp [costStep, ht, hp]
  · intro u c t ht hs
    simp [costStep, ht, hs]

/-- Witness for C10: a Buy missing its `unit` key adds exactly one unit at
the given price. -/
theorem calculate_index_cost_malformed_witness :
    costStep (0, 0) ⟨0, "买入", none, some 5, none, none⟩ = (1, 5) := by
  have h := calculate_index_cost_malformed.1 0 0
    ⟨0, "买入", none, some 5, none, none⟩ rfl rfl
  exact h.trans (by norm_num)

/-- The fixed set of trade signals produced by the dashboard's signal
ladder (dashboard.py lines 763-816). -/
inductive Signal where
  | insufficientHistory
  | suppressedByCooldown
  | suggestSell
  | suggestSellNoHolding
  | neutral
  | suppressedByStepBuy
  | suggestBuy
  | suggestBuyAtCap
deriving DecidableEq, Repr

/-- The cooldown flag `time_limit_suppression` (dashboard.py lines 722-747):
it fires only when the last history entry has a non-null `pe`, it is less
than `min_interval_days` old, and the relative P/E move since it is smaller
in absolute value than `volatility_override_pct`. -/
def time_limit_suppression (history : List Transaction) (today : Int)
    (curr_pe : ℚ) (min_interval_days : Int) (volatility_override_pct : ℚ) : Bool :=
  match history.getLast? with
  | none => false
  | some last_op =>
    match last_op.pe with
    | none => false
    | some last_op_pe =>
      if today - last_op.date < min_interval_days then
        decide (|(curr_pe - last_op_pe) / last_op_pe| < volatility_override_pct)
      else false

/-- The scan for the most recent Buy with a non-null `pe`
(dashboard.py lines 749-754). -/
def last_buy_pe (history : List Transaction) : Option ℚ :=
  (history.reverse.find? (fun t => t.type == "买入" && t.pe.isSome)).bind (fun t => t.pe)

/-- The module-level signal ladder (dashboard.py lines 756-816).
`avg3`/`avg_5yr` are the trailing averages (`none` models `NaN`), `lb_pe`
is the scanned `last_buy_pe`, and `suppressed` is the already-computed
`time_limit_suppression` flag. -/
def evaluate_signal (curr_pe curr_percentile : ℚ) (avg3 avg_5yr : Option ℚ)
    (current_holdings : ℚ) (lb_pe : Option ℚ) (suppressed : Bool)
    (max_units step_percent : ℚ) : Signal :=
  let benchmark_pe := avg3.getD 0
  let diff_pct : Option ℚ :=
    if 0 < benchmark_pe then some ((curr_pe - benchmark_pe) / benchmark_pe * 100) else none
  if benchmark_pe = 0 then .insufficientHistory
  else if suppressed then .suppressedByCooldown
  else
    let buy_condition_1 : Bool := decide (curr_percentile < 1/5)
    let buy_condition_2 : Bool :=
      (avg3.isSome && decide (curr_pe < avg3.getD 0)) &&
      (avg_5yr.isSome && decide (curr_pe < avg_5yr.getD 0))
    let sell_condition_1 : Bool := decide (3/4 < curr_percentile)
    let sell_condition_2 : Bool := diff_pct.isSome && decide (30 < diff_pct.getD 0)
    if sell_condition_1 || sell_condition_2 then
      if 0 < current_holdings then .suggestSell else .suggestSellNoHolding
    else if buy_condition_1 || buy_condition_2 then
      let suppress_by_step : Bool :=
        decide (0 < current_holdings) &&
        (lb_pe.isSome && decide (lb_pe.getD 0 * (1 - step_percent) < curr_pe))
      if suppress_by_step then .suppressedByStepBuy
      else if current_holdings < max_units then .suggestBuy
      else .suggestBuyAtCap
    else .neutral

/-- C6: the ladder evaluates insufficient-history, cooldown, sell, buy in
that strict order; whenever the two history gates do not fire and a sell
condition and a buy condition hold simultaneously, the result is a
Sell-family signal, never a Buy-family one. -/
theorem evaluate_signal_sell_precedes_buy
    (curr_pe curr_percentile b : ℚ) (avg_5yr : Option ℚ)
    (current_holdings : ℚ) (lb_pe : Option ℚ) (max_units step_percent : ℚ)
    (hb : b ≠ 0)
    (hsell : 3/4 < curr_percentile ∨ (0 < b ∧ 30 < (curr_pe - b) / b * 100))
    (hbuy : curr_percentile < 1/5 ∨
      (curr_pe < b ∧ ∃ a5, avg_5yr = some a5 ∧ curr_pe < a5)) :
    evaluate_signal curr_pe curr_percentile (some b) avg_5yr current_holdings
        lb_pe false max_units step_percent = .suggestSell ∨
    evaluate_signal curr_pe curr_percentile (some b) avg_5yr current_holdings
        lb_pe false max_units step_percent = .suggestSellNoHolding := by
  unfold evaluate_signal
  simp only [Option.getD_some, Bool.false_eq_true, if_false, if_neg hb]
  have hcond : (decide (3/4 < curr_percentile) ||
      ((if 0 < b then some ((curr_pe - b) / b * 100) else none).isSome &&
        decide (30 < (if 0 < b then some ((curr_pe - b) / b * 100) else none).getD 0)))
      = true := by
    rcases hsell with h1 | ⟨hbpos, h2⟩
    · simp [h1]
    · simp [if_pos hbpos, h2]
  rw [hcond, if_pos rfl]
  by_cases hh : 0 < current_holdings
  · exact Or.inl (by rw [if_pos hh])
  · exact Or.inr (by rw [if_neg hh])

/-- Witness for C6: percentile 0.80 triggers the sell condition while the
P/E sits below both trailing averages (buy condition); the ladder answers
with a sell. -/
theorem evaluate_signal_sell_precedes_buy_witness :
    evaluate_signal 10 (4/5) (some 20) (some 20) 1 none false 150 (6/100)
        = .suggestSell ∨
    evaluate_signal 10 (4/5) (some 20) (some 20) 1 none false 150 (6/100)
        = .suggestSellNoHolding := by
  exact evaluate_signal_sell_precedes_buy 10 (4/5) 20 (some 20) 1 none 150 (6/100)
    (by norm_num) (Or.inl (by norm_num)) (Or.inr ⟨by norm_num, 20, rfl, by norm_num⟩)

/-- C7: the cooldown fires exactly when the last history entry has a
non-null `pe`, lies within `min_interval_days` of today, and the relative
P/E change since it is below `volatility_override_pct` in absolute value;
otherwise evaluation continues, and (past the history gate) the ladder
returns `SuppressedByCooldown` exactly when the flag fired. -/
theorem time_limit_suppression_spec :
    (∀ (history : List Transaction) (today : Int) (curr_pe : ℚ)
        (min_interval_days : Int) (volatility_override_pct : ℚ)
        (last_op : Transaction) (last_op_pe : ℚ),
      history.getLast? = some last_op → last_op.pe = some last_op_pe →
      today - last_op.date < min_interval_days →
      (time_limit_suppression history today curr_pe min_interval_days
          volatility_override_pct = true ↔
        |(curr_pe - last_op_pe) / last_op_pe| < volatility_override_pct))
    ∧ (∀ (history : List Transaction) (today : Int) (curr_pe : ℚ)
        (min_interval_days : Int) (volatility_override_pct : ℚ)
        (last_op : Transaction) (last_op_pe : ℚ),
      history.getLast? = some last_op → last_op.pe = some last_op_pe →
      ¬ (today - last_op.date < min_interval_days) →
      time_limit_suppression history today curr_pe min_interval_days
        volatility_override_pct = false)
    ∧ (∀ (history : List Transaction) (today : Int) (curr_pe : ℚ)
        (min_interval_days : Int) (volatility_override_pct : ℚ)
        (last_op : Transaction),
      history.getLast? = some last_op → last_op.pe = none →
      time_limit_suppression history today curr_pe min_interval_days
        volatility_override_pct = false)
    ∧ (∀ (today : Int) (curr_pe : ℚ)
        (min_interval_days : Int) (volatility_override_pct : ℚ),
      time_limit_suppression [] today curr_pe min_interval_days
        volatility_override_pct = false)
    ∧ (∀ (curr_pe curr_percentile b : ℚ) (avg_5yr : Option ℚ)
        (current_holdings : ℚ) (lb_pe : Option ℚ) (suppressed : Bool)
        (max_units step_percent : ℚ), b ≠ 0 →
      (evaluate_signal curr_pe curr_percentile (some b) avg_5yr current_holdings
          lb_pe suppressed max_units step_percent = .suppressedByCooldown ↔
        suppressed = true)) := by
  refine ⟨?_, ?_, ?_, ?_, ?_⟩
  · intro history today curr_pe mid vol last_op last_op_pe hlast hpe hdays
    unfold time_limit_suppression
    rw [hlast]
    simp only [hpe, if_pos hdays, decide_eq_true_eq]
  · intro history today curr_pe mid vol last_op last_op_pe hlast hpe hdays
    unfold time_limit_suppression
    rw [hlast]
    simp only [hpe, if_neg hdays]
  · intro history today curr_pe mid vol last_op hlast hpe
    unfold time_limit_suppression
    rw [hlast]
    simp only [hpe]
  · intro today curr_pe mid vol
    rfl
  · intro curr_pe curr_percentile b avg_5yr current_holdings lb_pe suppressed
      max_units step_percent hb
    unfold evaluate_signal
    simp only [Option.getD_some, if_neg hb]
    constructor
    · intro hres
      by_contra hsup
      rw [Bool.not_eq_true] at hsup
      rw [hsup] at hres
      simp only [Bool.false_eq_true, if_false] at hres
      repeat' split at hres
      all_goals exact Signal.noConfusion hres
    · intro hsup
      rw [hsup]
      rfl

/-- Witness for C7: with `min_interval_days = 30`, a 10-day-old last
transaction at P/E 100 and `volatility_override_pct = 0.12`, a current P/E
of 105 (a 5% move) is suppressed while 115 (a 15% move) is not. -/
theorem time_limit_suppression_spec_witness :
    time_limit_suppression [⟨0, "买入", some 1, some 1, some 100, some 1⟩]
        10 105 30 (12/100) = true ∧
    time_limit_suppression [⟨0, "买入", some 1, some 1, some 100, some 1⟩]
        10 115 30 (12/100) = false := by
  constructor
  · exact (time_limit_suppression_spec.1
      [⟨0, "买入", some 1, some 1, some 100, some 1⟩] 10 105 30 (12/100)
      ⟨0, "买入", some 1, some 1, some 100, some 1⟩ 100 rfl rfl (by norm_num)).mpr
      (by rw [abs_of_nonneg] <;> norm_num)
  · have h := time_limit_suppression_spec.1
      [⟨0, "买入", some 1, some 1, some 100, some 1⟩] 10 115 30 (12/100)
      ⟨0, "买入", some 1, some 1, some 100, some 1⟩ 100 rfl rfl (by norm_num)
    have hko : ¬ |((115 : ℚ) - 100) / 100| < 12/100 := by
      rw [abs_of_nonneg] <;> norm_num
    rw [Bool.eq_false_iff]
    exact fun htrue => hko (h.mp htrue)

/-- C8: past the history and cooldown gates, with the buy conditions (and
not the sell conditions) holding, a positive position and a scanned
`last_buy_pe`, the ladder answers `SuppressedByStepBuy` exactly when
`curr_pe > last_buy_pe * (1 - step_percent)`; when the gate passes it
answers `SuggestBuy` below `max_units` and `SuggestBuyAtCap` at or above
it; with no position or no prior Buy `pe` the gate is skipped. -/
theorem step_buy_gate_spec :
    (∀ (curr_pe curr_percentile b : ℚ) (avg_5yr : Option ℚ)
        (current_holdings : ℚ) (lb_pe : Option ℚ) (max_units step_percent lbp : ℚ),
      b ≠ 0 →
      ¬ (3/4 < curr_percentile) →
      ¬ (0 < b ∧ 30 < (curr_pe - b) / b * 100) →
      (curr_percentile < 1/5 ∨
        (curr_pe < b ∧ ∃ a5, avg_5yr = some a5 ∧ curr_pe < a5)) →
      0 < current_holdings → lb_pe = some lbp →
      (evaluate_signal curr_pe curr_percentile (some b) avg_5yr current_holdings
          lb_pe false max_units step_percent = .suppressedByStepBuy ↔
        lbp * (1 - step_percent) < curr_pe))
    ∧ (∀ (curr_pe curr_percentile b : ℚ) (avg_5yr : Option ℚ)
        (current_holdings : ℚ) (lb_pe : Option ℚ) (max_units step_percent lbp : ℚ),
      b ≠ 0 →
      ¬ (3/4 < curr_percentile) →
      ¬ (0 < b ∧ 30 < (curr_pe - b) / b * 100) →
      (curr_percentile < 1/5 ∨
        (curr_pe < b ∧ ∃ a5, avg_5yr = some a5 ∧ curr_pe < a5)) →
      0 < current_holdings → lb_pe = some lbp →
      curr_pe ≤ lbp * (1 - step_percent) →
      evaluate_signal curr_pe curr_percentile (some b) avg_5yr current_holdings
          lb_pe false max_units step_percent =
        (if current_holdings < max_units then .suggestBuy else .suggestBuyAtCap))
    ∧ (∀ (curr_pe curr_percentile b : ℚ) (avg_5yr : Option ℚ)
        (current_holdings : ℚ) (lb_pe : Option ℚ) (max_units step_percent : ℚ),
      b ≠ 0 →
      ¬ (3/4 < curr_percentile) →
      ¬ (0 < b ∧ 30 < (curr_pe - b) / b * 100) →
      (curr_percentile < 1/5 ∨
        (curr_pe < b ∧ ∃ a5, avg_5yr = some a5 ∧ curr_pe < a5)) →
      (current_holdings ≤ 0 ∨ lb_pe = none) →
      evaluate_signal curr_pe curr_percentile (some b) avg_5yr current_holdings
          lb_pe false max_units step_percent =
        (if current_holdings < max_units then .suggestBuy else .suggestBuyAtCap)) := by
  have key : ∀ (curr_pe curr_percentile b : ℚ) (avg_5yr : Option ℚ)
      (current_holdings : ℚ) (lb_pe : Option ℚ) (max_units step_percent : ℚ),
      b ≠ 0 →
      ¬ (3/4 < curr_percentile) →
      ¬ (0 < b ∧ 30 < (curr_pe - b) / b * 100) →
      (curr_percentile < 1/5 ∨
        (curr_pe < b ∧ ∃ a5, avg_5yr = some a5 ∧ curr_pe < a5)) →
      evaluate_signal curr_pe curr_percentile (some b) avg_5yr current_holdings
          lb_pe false max_units step_percent =
        (if (decide (0 < current_holdings) &&
            (lb_pe.isSome && decide (lb_pe.getD 0 * (1 - step_percent) < curr_pe)))
            = true then .suppressedByStepBuy
         else if current_holdings < max_units then .suggestBuy
         else .suggestBuyAtCap) := by
    intro curr_pe curr_percentile b avg_5yr current_holdings lb_pe max_units
      step_percent hb hs1 hs2 hbuy
    unfold evaluate_signal
    simp only [Option.getD_some, Option.isSome_some, Bool.true_and, if_neg hb,
      Bool.false_eq_true, if_false]
    have hsell : (decide (3/4 < curr_percentile) ||
        ((if 0 < b then some ((curr_pe - b) / b * 100) else none).isSome &&
          decide (30 < (if 0 < b then some ((curr_pe - b) / b * 100) else none).getD 0)))
        = false := by
      by_cases hbp : 0 < b
      · have hnd : ¬ (30 < (curr_pe - b) / b * 100) := fun hd => hs2 ⟨hbp, hd⟩
        simp [hs1, if_pos hbp, hnd]
      · simp [hs1, if_neg hbp]
    rw [hsell]
    simp only [Bool.false_eq_true, if_false]
    have hbc : (decide (curr_percentile < 1/5) ||
        (decide (curr_pe < b) &&
          (avg_5yr.isSome && decide (curr_pe < avg_5yr.getD 0)))) = true := by
      rcases hbuy with h | ⟨h1, a5, ha5, h2⟩
      · rw [decide_eq_true h, Bool.true_or]
      · rw [ha5]
        simp only [Option.isSome_some, Option.getD_some, Bool.true_and]
        simp [decide_eq_true h1, decide_eq_true h2]
    rw [hbc, if_pos rfl]
  refine ⟨?_, ?_, ?_⟩
  · intro curr_pe curr_percentile b avg_5yr current_holdings lb_pe max_units
      step_percent lbp hb hs1 hs2 hbuy hh hlb
    rw [key curr_pe curr_percentile b avg_5yr current_holdings lb_pe max_units
      step_percent hb hs1 hs2 hbuy, hlb]
    simp only [Option.isSome_some, Option.getD_some, Bool.true_and]
    by_cases hstep : lbp * (1 - step_percent) < curr_pe
    · simp [hh, hstep]
    · have hff : (decide (0 < current_holdings) && decide (lbp * (1 - step_percent) < curr_pe))
          = false := by simp [hstep]
      rw [hff]
      simp only [Bool.false_eq_true, if_false]
      refine iff_of_false (fun hcontra => ?_) hstep
      by_cases hm : current_holdings < max_units
      · rw [if_pos hm] at hcontra; exact Signal.noConfusion hcontra
      · rw [if_neg hm] at hcontra; exact Signal.noConfusion hcontra
  · intro curr_pe curr_percentile b avg_5yr current_holdings lb_pe max_units
      step_percent lbp hb hs1 hs2 hbuy hh hlb hle
    rw [key curr_pe curr_percentile b avg_5yr current_holdings lb_pe max_units
      step_percent hb hs1 hs2 hbuy, hlb]
    simp only [Option.isSome_some, Option.getD_some, Bool.true_and]
    rw [if_neg (by simp [not_lt.mpr hle])]
  · intro curr_pe curr_percentile b avg_5yr current_holdings lb_pe max_units
      step_percent hb hs1 hs2 hbuy hskip
    rw [key curr_pe curr_percentile b avg_5yr current_holdings lb_pe max_units
      step_percent hb hs1 hs2 hbuy]
    rcases hskip with hh | hnone
    · rw [if_neg (by simp [not_lt.mpr hh])]
    · rw [hnone, if_neg (by simp)]

/-- Witness for C8: with `last_buy_pe = 20` (scanned from a concrete
history) and `step_percent = 0.06`, a current P/E of 19 is suppressed by
the step gate while 18.7 yields a buy (holdings 1 of max 150). -/
theorem step_buy_gate_spec_witness :
    evaluate_signal 19 (1/10) (some 20) (some 20) 1
        (last_buy_pe [⟨0, "买入", some 1, some 1, some 20, some 1⟩]) false 150 (6/100)
      = .suppressedByStepBuy ∧
    evaluate_signal (187/10) (1/10) (some 20) (some 20) 1
        (last_buy_pe [⟨0, "买入", some 1, some 1, some 20, some 1⟩]) false 150 (6/100)
      = .suggestBuy := by
  have hlb : last_buy_pe [⟨0, "买入", some 1, some 1, some 20, some 1⟩] = some 20 := rfl
  constructor
  · exact (step_buy_gate_spec.1 19 (1/10) 20 (some 20) 1 _ 150 (6/100) 20
      (by norm_num) (by norm_num) (by norm_num) (Or.inl (by norm_num))
      (by norm_num) hlb).mpr (by norm_num)
  · have h := step_buy_gate_spec.2.1 (187/10) (1/10) 20 (some 20) 1 _ 150 (6/100) 20
      (by norm_num) (by norm_num) (by norm_num) (Or.inl (by norm_num))
      (by norm_num) hlb (by norm_num)
    rw [h]
    norm_num

/-- `calculate_index_pl_metrics` (dashboard.py lines 338-370): average cost
and floating P/L estimate.  `holdings`/`total_cost` come from the stored
state, `current_close_index` is the latest index close; the result triple
is `(avg_cost, floating_pl_pct, total_market_value)` with `none` modelling
`NaN` ("not applicable").  The guard `0 < last_trade_close` models the
source's `last_trade and last_trade['close'] > 0` (a missing anchor gives
`last_trade_close = 0`, failing the guard exactly like `None` does). -/
def calculate_index_pl_metrics (holdings total_cost : ℚ)
    (history : List Transaction) (current_close_index : ℚ) :
    Option ℚ × Option ℚ × Option ℚ :=
  if holdings = 0 then (none, none, none)
  else
    let avg_cost := total_cost / holdings
    let last_trade := history.reverse.find? (fun t => t.price.isSome && t.close.isSome)
    let last_trade_close := (last_trade.bind (fun t => t.close)).getD 0
    let last_trade_etf_price := (last_trade.bind (fun t => t.price)).getD 0
    if 0 < last_trade_close then
      let estimated_current_etf_price :=
        last_trade_etf_price * (current_close_index / last_trade_close)
      let total_market_value := estimated_current_etf_price * holdings
      (some avg_cost, some (total_market_value / total_cost - 1), some total_market_value)
    else (some avg_cost, none, none)

/-- Counterexample to C9: the claim says that whenever some transaction has
both non-null `price` and `close`, the P/L percentage and market value are
computed from the most recent such transaction.  But the code additionally
requires that transaction's `close` to be strictly positive: with a history
whose only anchoring transaction has `close = 0`, an anchor exists yet the
code returns "not applicable" for both P/L and market value. -/
theorem calculate_index_pl_metrics_counterexample :
    (([⟨0, "买入", some 1, some 1, none, some 0⟩] : List Transaction).reverse.find?
        (fun t => t.price.isSome && t.close.isSome)).isSome = true
    ∧ calculate_index_pl_metrics 1 1 [⟨0, "买入", some 1, some 1, none, some 0⟩] 5
      = (some 1, none, none) := by
  constructor
  · rfl
  · unfold calculate_index_pl_metrics
    rw [if_neg (by norm_num : ¬ ((1 : ℚ) = 0))]
    have hfind : (([⟨0, "买入", some 1, some 1, none, some 0⟩] : List Transaction).reverse.find?
        (fun t => t.price.isSome && t.close.isSome))
        = some ⟨0, "买入", some 1, some 1, none, some 0⟩ := rfl
    rw [hfind]
    norm_num

/-- C9 (amended): `calculate_index_pl_metrics` returns all-"not applicable"
when `units_held = 0`; otherwise it always returns
`avg_cost = total_cost / units_held`; P/L and market value are "not
applicable" when no transaction has both non-null `price` and `close`, and
also when the most recent such transaction has `close ≤ 0`; otherwise
`estimated_current_price = last.price * (current_close / last.close)`,
`market_value = estimated_current_price * units_held` and
`pl_pct = market_value / total_cost - 1`. -/
theorem calculate_index_pl_metrics_spec :
    (∀ (total_cost : ℚ) (history : List Transaction) (cc : ℚ),
      calculate_index_pl_metrics 0 total_cost history cc = (none, none, none))
    ∧ (∀ (holdings total_cost : ℚ) (history : List Transaction) (cc : ℚ),
      holdings ≠ 0 →
      history.reverse.find? (fun t => t.price.isSome && t.close.isSome) = none →
      calculate_index_pl_metrics holdings total_cost history cc
        = (some (total_cost / holdings), none, none))
    ∧ (∀ (holdings total_cost : ℚ) (history : List Transaction) (cc : ℚ)
        (t : Transaction) (cl : ℚ),
      holdings ≠ 0 →
      history.reverse.find? (fun t => t.price.isSome && t.close.isSome) = some t →
      t.close = some cl → cl ≤ 0 →
      calculate_index_pl_metrics holdings total_cost history cc
        = (some (total_cost / holdings), none, none))
    ∧ (∀ (holdings total_cost : ℚ) (history : List Transaction) (cc : ℚ)
        (t : Transaction) (p cl : ℚ),
      holdings ≠ 0 → total_cost ≠ 0 →
      history.reverse.find? (fun t => t.price.isSome && t.close.isSome) = some t →
      t.price = some p → t.close = some cl → 0 < cl →
      calculate_index_pl_metrics holdings total_cost history cc
        = (some (total_cost / holdings),
           some (p * (cc / cl) * holdings / total_cost - 1),
           some (p * (cc / cl) * holdings))) := by
  refine ⟨?_, ?_, ?_, ?_⟩
  · intro total_cost history cc
    unfold calculate_index_pl_metrics
    rw [if_pos rfl]
  · intro holdings total_cost history cc hh hfind
    unfold calculate_index_pl_metrics
    rw [if_neg hh, hfind]
    simp only [Option.none_bind, Option.getD_none]
    rw [if_neg (lt_irrefl (0 : ℚ))]
  · intro holdings total_cost history cc t cl hh hfind hcl hle
    unfold calculate_index_pl_metrics
    rw [if_neg hh, hfind]
    simp only [Option.some_bind]
    rw [hcl]
    simp only [Option.getD_some]
    rw [if_neg (not_lt.mpr hle)]
  · intro holdings total_cost history cc t p cl hh hc hfind hp hcl hpos
    unfold calculate_index_pl_metrics
    rw [if_neg hh, hfind]
    simp only [Option.some_bind]
    rw [hcl, hp]
    simp only [Option.getD_some]
    rw [if_pos hpos]

/-- Witness for C9: holding 2 units at total cost 4, with the anchoring
transaction at price 3 / close 2 and a current close of 4, the estimator
returns average cost 2, P/L 200% and market value 12. -/
theorem calculate_index_pl_metrics_spec_witness :
    calculate_index_pl_metrics 2 4 [⟨0, "买入", some 1, some 3, none, some 2⟩] 4
      = (some 2, some 2, some 12) := by
  have h := calculate_index_pl_metrics_spec.2.2.2 2 4
    [⟨0, "买入", some 1, some 3, none, some 2⟩] 4
    ⟨0, "买入", some 1, some 3, none, some 2⟩ 3 2
    (by norm_num) (by norm_num) rfl rfl rfl (by norm_num)
  rw [h]
  norm_num

/-- One cleaned row of a valuation series (post-loader): date (as integer
day number), `pe`, `pe_percentile` and `Close`, all non-null. -/
structure Obs where
  Date : Int
  pe : ℚ
  pe_percentile : ℚ
  Close : ℚ
deriving DecidableEq, Repr

/-- The date ordering used by `sort_index`/`sort_values`. -/
def byDateLe : Obs → Obs → Bool := fun a b => decide (a.Date ≤ b.Date)

/-- `find_pe_by_date` (dashboard.py lines 225-257): look up `(pe, Close)`
for a target date; `none` as target models a malformed date string (the
caught exception path), exact matches win, otherwise the value is
forward-filled from the nearest preceding date, and a target before all
data yields `(NaN, NaN)`, modelled `(none, none)`. -/
def find_pe_by_date (df : List Obs) (target_date : Option Int) :
    Option ℚ × Option ℚ :=
  match target_date with
  | none => (none, none)
  | some d =>
    match (df.mergeSort byDateLe).find? (fun r => r.Date == d) with
    | some row => (some row.pe, some row.Close)
    | none =>
      match ((df.mergeSort byDateLe).filter (fun r => decide (r.Date < d))).getLast? with
      | some row => (some row.pe, some row.Close)
      | none => (none, none)

/-- A strictly date-sorted list is left unchanged by the loader's sort. -/
theorem mergeSort_byDateLe_of_sorted {df : List Obs}
    (hs : df.Pairwise (fun a b => a.Date < b.Date)) :
    df.mergeSort byDateLe = df :=
  List.mergeSort_of_sorted
    (hs.imp (fun hab => decide_eq_true (le_of_lt hab)))

/-- In a strictly date-sorted list, `find?` on an exact date hits the unique
row carrying that date. -/
theorem find?_date_of_sorted (d : Int) :
    ∀ df : List Obs, df.Pairwise (fun a b => a.Date < b.Date) →
    ∀ r ∈ df, r.Date = d → df.find? (fun x => x.Date == d) = some r := by
  intro df
  induction df with
  | nil =>
    intro _ r hr _
    exact absurd hr (List.not_mem_nil r)
  | cons a t ih =>
    intro hs r hr hrd
    rcases List.mem_cons.mp hr with rfl | hrt
    · exact List.find?_cons_of_pos t (by simp [hrd])
    · have ha : a.Date < r.Date := (List.pairwise_cons.mp hs).1 r hrt
      have hne : ¬ ((a.Date == d) = true) := by
        simp only [beq_iff_eq]
        rw [← hrd]
        exact ne_of_lt ha
      rw [List.find?_cons_of_neg t hne]
      exact ih (List.pairwise_cons.mp hs).2 r hrt hrd

/-- In a strictly date-sorted list the last element is the one with the
maximal date. -/
theorem getLast?_of_sorted_max :
    ∀ l : List Obs, l.Pairwise (fun a b => a.Date < b.Date) →
    ∀ r ∈ l, (∀ q ∈ l, q.Date ≤ r.Date) → l.getLast? = some r := by
  intro l
  induction l with
  | nil =>
    intro _ r hr _
    exact absurd hr (List.not_mem_nil r)
  | cons a t ih =>
    intro hs r hr hmax
    cases t with
    | nil =>
      have hra := List.mem_singleton.mp hr
      subst hra
      rfl
    | cons b u =>
      rw [List.getLast?_cons_cons]
      rcases List.mem_cons.mp hr with rfl | hrt
      · exfalso
        have hb : r.Date < b.Date :=
          (List.pairwise_cons.mp hs).1 b (List.mem_cons_self b u)
        have hb2 : b.Date ≤ r.Date :=
          hmax b (List.mem_cons.mpr (Or.inr (List.mem_cons_self b u)))
        exact absurd hb (not_lt.mpr hb2)
      · exact ih (List.pairwise_cons.mp hs).2 r hrt
          (fun q hq => hmax q (List.mem_cons.mpr (Or.inr hq)))

/-- C5: on a strictly date-sorted series, `find_pe_by_date` returns the
exact row's `(pe, Close)` when the target date is present; otherwise the
values of the nearest strictly preceding date; `(none, none)` when the
target predates the series; it never answers from a date after the target;
and a malformed target immediately yields `(none, none)`. -/
theorem find_pe_by_date_spec (df : List Obs)
    (hs : df.Pairwise (fun a b => a.Date < b.Date)) :
    (find_pe_by_date df none = (none, none))
    ∧ (∀ (d : Int) (r : Obs), r ∈ df → r.Date = d →
        find_pe_by_date df (some d) = (some r.pe, some r.Close))
    ∧ (∀ (d : Int) (r : Obs), (∀ q ∈ df, q.Date ≠ d) →
        r ∈ df → r.Date < d → (∀ q ∈ df, q.Date < d → q.Date ≤ r.Date) →
        find_pe_by_date df (some d) = (some r.pe, some r.Close))
    ∧ (∀ d : Int, (∀ q ∈ df, d < q.Date) →
        find_pe_by_date df (some d) = (none, none))
    ∧ (∀ (d : Int) (p c : ℚ), find_pe_by_date df (some d) = (some p, some c) →
        ∃ r ∈ df, r.Date ≤ d ∧ r.pe = p ∧ r.Close = c) := by
  have hsort := mergeSort_byDateLe_of_sorted hs
  refine ⟨rfl, ?_, ?_, ?_, ?_⟩
  · intro d r hr hrd
    simp only [find_pe_by_date]
    rw [hsort, find?_date_of_sorted d df hs r hr hrd]
  · intro d r hne hrm hrlt hmax
    simp only [find_pe_by_date]
    rw [hsort]
    have hfind : df.find? (fun x => x.Date == d) = none :=
      List.find?_eq_none.mpr (fun x hx => by
        simp only [beq_iff_eq]
        exact hne x hx)
    rw [hfind]
    have hpf : (df.filter (fun r => decide (r.Date < d))).Pairwise
        (fun a b => a.Date < b.Date) :=
      List.Pairwise.sublist (List.filter_sublist df) hs
    have hrmem : r ∈ df.filter (fun r => decide (r.Date < d)) :=
      List.mem_filter.mpr ⟨hrm, decide_eq_true hrlt⟩
    have hflt : ∀ q ∈ df.filter (fun r => decide (r.Date < d)), q.Date ≤ r.Date := by
      intro q hq
      rcases List.mem_filter.mp hq with ⟨hqm, hqd⟩
      exact hmax q hqm (of_decide_eq_true hqd)
    rw [getLast?_of_sorted_max _ hpf r hrmem hflt]
  · intro d hall
    simp only [find_pe_by_date]
    rw [hsort]
    have hfind : df.find? (fun x => x.Date == d) = none :=
      List.find?_eq_none.mpr (fun x hx => by
        simp only [beq_iff_eq]
        exact (ne_of_gt (hall x hx)))
    rw [hfind]
    have hempty : df.filter (fun r => decide (r.Date < d)) = [] :=
      List.filter_eq_nil_iff.mpr (fun a ha => by
        simp only [decide_eq_true_eq]
        exact not_lt.mpr (le_of_lt (hall a ha)))
    rw [hempty]
    rfl
  · intro d p c hres
    simp only [find_pe_by_date] at hres
    rw [hsort] at hres
    rcases hfind : df.find? (fun r => r.Date == d) with _ | row
    · rw [hfind] at hres
      rcases hlast : (df.filter (fun r => decide (r.Date < d))).getLast? with _ | row
      · rw [hlast] at hres
        have hbad : ((none : Option ℚ), (none : Option ℚ))
            = ((some p : Option ℚ), (some c : Option ℚ)) := hres
        exact absurd (congrArg Prod.fst hbad) (by simp)
      · rw [hlast] at hres
        have hres2 : ((some row.pe : Option ℚ), (some row.Close : Option ℚ))
            = ((some p : Option ℚ), (some c : Option ℚ)) := hres
        have hmemf : row ∈ df.filter (fun r => decide (r.Date < d)) := by
          rcases List.getLast?_eq_some_iff.mp hlast with ⟨ys, hys⟩
          rw [hys]
          exact List.mem_append.mpr (Or.inr (List.mem_singleton.mpr rfl))
        rcases List.mem_filter.mp hmemf with ⟨hmem, hlt⟩
        exact ⟨row, hmem, le_of_lt (of_decide_eq_true hlt),
          Option.some.inj (congrArg Prod.fst hres2),
          Option.some.inj (congrArg Prod.snd hres2)⟩
    · rw [hfind] at hres
      have hres2 : ((some row.pe : Option ℚ), (some row.Close : Option ℚ))
          = ((some p : Option ℚ), (some c : Option ℚ)) := hres
      have hmem := List.mem_of_find?_eq_some hfind
      have hdate : row.Date = d := by
        have hbeq := List.find?_some hfind
        simpa using hbeq
      exact ⟨row, hmem, le_of_eq hdate,
        Option.some.inj (congrArg Prod.fst hres2),
        Option.some.inj (congrArg Prod.snd hres2)⟩

/-- Witness for C5: on the series with dates {0, 2} (for 2020-01-01 and
2020-01-03), looking up date 1 (2020-01-02) forward-fills from date 0, and
looking up date -1 (2019-12-31) finds nothing. -/
theorem find_pe_by_date_spec_witness :
    find_pe_by_date [⟨0, 5, 1/2, 100⟩, ⟨2, 7, 1/2, 200⟩] (some 1)
      = (some 5, some 100)
    ∧ find_pe_by_date [⟨0, 5, 1/2, 100⟩, ⟨2, 7, 1/2, 200⟩] (some (-1))
      = (none, none) := by
  have hs : ([⟨0, 5, 1/2, 100⟩, ⟨2, 7, 1/2, 200⟩] : List Obs).Pairwise
      (fun a b => a.Date < b.Date) := by
    refine List.Pairwise.cons ?_ (List.Pairwise.cons ?_ List.Pairwise.nil)
    · intro q hq
      rcases List.mem_singleton.mp hq with rfl
      decide
    · intro q hq
      exact absurd hq (List.not_mem_nil q)
  constructor
  · refine (find_pe_by_date_spec _ hs).2.2.1 1 ⟨0, 5, 1/2, 100⟩ ?_
      (List.mem_cons_self _ _) (by decide) ?_
    · intro q hq
      rcases List.mem_cons.mp hq with rfl | hq2
      · decide
      · rcases List.mem_singleton.mp hq2 with rfl
        decide
    · intro q hq hlt
      rcases List.mem_cons.mp hq with rfl | hq2
      · exact le_refl _
      · rcases List.mem_singleton.mp hq2 with rfl
        exact absurd hlt (by decide)
  · refine (find_pe_by_date_spec _ hs).2.2.2.1 (-1) ?_
    intro q hq
    rcases List.mem_cons.mp hq with rfl | hq2
    · decide
    · rcases List.mem_singleton.mp hq2 with rfl
      decide

/-- One raw CSV row after column renaming and numeric coercion
(dashboard.py lines 297-307): each field is `none` when the cell was
missing or failed coercion (`errors="coerce"`). -/
structure RawRow where
  Date : Option Int
  pe : Option ℚ
  pe_percentile : Option ℚ
  Close : Option ℚ
deriving DecidableEq, Repr

/-- The `dropna(subset=['pe', 'Date', 'pe_percentile', 'Close'])` step
(dashboard.py line 308): keep exactly the rows where all four canonical
fields coerced successfully. -/
def dropna (rows : List RawRow) : List Obs :=
  rows.filterMap (fun row =>
    match row.Date, row.pe, row.pe_percentile, row.Close with
    | some d, some p, some q, some c => some ⟨d, p, q, c⟩
    | _, _, _, _ => none)

/-- The `sort_values('Date', ascending=True)` step (dashboard.py line 309). -/
def sort_values (rows : List Obs) : List Obs := rows.mergeSort byDateLe

/-- The normalization pipeline of `get_metrics_from_csv`
(dashboard.py lines 302-312): coercion-filter then sort by date. -/
def get_metrics_df (rows : List RawRow) : List Obs := sort_values (dropna rows)

/-- Counterexample to C3: the loader sorts but never deduplicates dates.
Two cleaned rows sharing date 5 both survive normalization, so the output
dates are `[5, 5]`: not strictly increasing, and the duplicate is not
removed. -/
theorem get_metrics_df_duplicate_dates_counterexample :
    (get_metrics_df [⟨some 5, some 1, some 0, some 1⟩,
        ⟨some 5, some 2, some 0, some 2⟩]).map (fun r => r.Date) = [5, 5]
    ∧ ¬ List.Sorted (fun a b : Int => a < b)
        ((get_metrics_df [⟨some 5, some 1, some 0, some 1⟩,
            ⟨some 5, some 2, some 0, some 2⟩]).map (fun r => r.Date))
    ∧ (get_metrics_df [⟨some 5, some 1, some 0, some 1⟩,
        ⟨some 5, some 2, some 0, some 2⟩]).length = 2 := by
  have hsorted : ([⟨5, 1, 0, 1⟩, ⟨5, 2, 0, 2⟩] : List Obs).Pairwise
      (fun a b => byDateLe a b = true) := by
    refine List.Pairwise.cons ?_ (List.Pairwise.cons ?_ List.Pairwise.nil)
    · intro q hq
      rcases List.mem_singleton.mp hq with rfl
      decide
    · intro q hq
      exact absurd hq (List.not_mem_nil q)
  have heq : get_metrics_df [⟨some 5, some 1, some 0, some 1⟩,
      ⟨some 5, some 2, some 0, some 2⟩] = [⟨5, 1, 0, 1⟩, ⟨5, 2, 0, 2⟩] := by
    unfold get_metrics_df sort_values dropna
    exact List.mergeSort_of_sorted hsorted
  refine ⟨?_, ?_, ?_⟩
  · rw [heq]
    rfl
  · rw [heq]
    intro hsort
    rcases List.pairwise_cons.mp hsort with ⟨h5, _⟩
    exact absurd (h5 5 (List.mem_cons_self 5 [])) (lt_irrefl 5)
  · rw [heq]
    rfl

/-- C3 (amended): normalization sorts the cleaned rows ascending by date —
the resulting dates are non-decreasing — and keeps every cleaned row (the
output is a permutation of the cleaned input); duplicate dates are NOT
removed, so the dates need not be strictly increasing. -/
theorem get_metrics_df_sorted (rows : List RawRow) :
    List.Sorted (fun a b : Int => a ≤ b)
      ((get_metrics_df rows).map (fun r => r.Date))
    ∧ (get_metrics_df rows).Perm (dropna rows) := by
  constructor
  · have htrans : ∀ a b c : Obs, byDateLe a b = true → byDateLe b c = true →
        byDateLe a c = true := by
      intro a b c h1 h2
      exact decide_eq_true (le_trans (of_decide_eq_true h1) (of_decide_eq_true h2))
    have htot : ∀ a b : Obs, (byDateLe a b || byDateLe b a) = true := by
      intro a b
      rcases le_total a.Date b.Date with h | h
      · simp [byDateLe, h]
      · simp [byDateLe, h]
    have hp := List.sorted_mergeSort htrans htot (dropna rows)
    exact List.pairwise_map.mpr (hp.imp (fun h => of_decide_eq_true h))
  · exact List.mergeSort_perm (dropna rows) byDateLe

/-- The trailing-window mean underlying pandas
`rolling(window, min_periods=1, closed='left').mean()` at one row: average
`pe` over the rows of `l` dated in `[r.Date - w, r.Date)`, `none` (NaN)
when that window holds no observation. -/
def windowAvg (w : Int) (l : List Obs) (r : Obs) : Option ℚ :=
  if (l.filter (fun p => decide (r.Date - w ≤ p.Date) && decide (p.Date < r.Date))).isEmpty
  then none
  else some
    (((l.filter (fun p => decide (r.Date - w ≤ p.Date) && decide (p.Date < r.Date))).map
        (fun p => p.pe)).sum /
      ((l.filter (fun p => decide (r.Date - w ≤ p.Date) && decide (p.Date < r.Date))).length : ℚ))

/-- The rolling pass itself: for each row in order, the window is drawn from
the rows before it (`prev`), exactly as the time-based pandas rolling does
on a sorted index. -/
def rollMean (w : Int) : List Obs → List Obs → List (Option ℚ)
  | _, [] => []
  | prev, r :: rest => windowAvg w prev r :: rollMean w (prev ++ [r]) rest

/-- `df['avg_3yr_roll']` (dashboard.py line 314): window `'1095D'`,
`min_periods=1`, `closed='left'`. -/
def avg_3yr_roll (df : List Obs) : List (Option ℚ) := rollMean 1095 [] df

/-- `df['avg_5yr_roll']` (dashboard.py line 315): window `'1825D'`,
`min_periods=1`, `closed='left'`. -/
def avg_5yr_roll (df : List Obs) : List (Option ℚ) := rollMean 1825 [] df

/-- Position `i` of the rolling pass is the window average over the rows
before position `i`. -/
theorem rollMean_get? (w : Int) :
    ∀ (rest prev : List Obs) (i : ℕ) (r : Obs), rest.get? i = some r →
    (rollMean w prev rest).get? i = some (windowAvg w (prev ++ rest.take i) r) := by
  intro rest
  induction rest with
  | nil =>
    intro prev i r hr
    simp at hr
  | cons a t ih =>
    intro prev i r hr
    cases i with
    | zero =>
      have ha : a = r := by simpa using hr
      subst ha
      simp [rollMean]
    | succ n =>
      have ht : t.get? n = some r := by simpa using hr
      have hih := ih (prev ++ [a]) n r ht
      rw [show rollMean w prev (a :: t)
          = windowAvg w prev a :: rollMean w (prev ++ [a]) t from rfl]
      rw [List.get?_cons_succ, hih]
      congr 2
      rw [List.append_assoc]
      rfl

/-- On a strictly date-sorted list, the trailing window of the row at
position `i` can be filtered from the whole list: no row at or after
position `i` is dated strictly before it. -/
theorem filter_window_take (w : Int) (df : List Obs)
    (hs : df.Pairwise (fun a b => a.Date < b.Date)) (i : ℕ) (r : Obs)
    (hr : df.get? i = some r) :
    df.filter (fun p => decide (r.Date - w ≤ p.Date) && decide (p.Date < r.Date))
      = (df.take i).filter
          (fun p => decide (r.Date - w ≤ p.Date) && decide (p.Date < r.Date)) := by
  obtain ⟨hlen, hget⟩ := List.get?_eq_some.mp hr
  have hdropc : df.drop i = r :: df.drop (i + 1) := by
    rw [List.drop_eq_getElem_cons hlen]
    congr 1
  have hpd : (df.drop i).Pairwise (fun a b => a.Date < b.Date) :=
    List.Pairwise.sublist (List.drop_sublist i df) hs
  rw [hdropc] at hpd
  conv_lhs => rw [← List.take_append_drop i df]
  rw [List.filter_append]
  have hnil : (df.drop i).filter
      (fun p => decide (r.Date - w ≤ p.Date) && decide (p.Date < r.Date)) = [] := by
    rw [hdropc, List.filter_eq_nil_iff]
    intro a ha
    simp only [Bool.and_eq_true, decide_eq_true_eq, not_and]
    intro _
    rcases List.mem_cons.mp ha with rfl | hat
    · exact lt_irrefl _
    · have hra := (List.pairwise_cons.mp hpd).1 a hat
      exact not_lt.mpr (le_of_lt hra)
  rw [hnil, List.append_nil]

/-- C1 (amended): for a strictly date-sorted series, the derived `avg_3yr`
(resp. `avg_5yr`) at the observation of position `i`, dated `D`, is the
mean of `pe` over exactly the observations dated in the half-open trailing
window `[D - 1095 days, D)` (resp. `[D - 1825 days, D)`) — the code's
windows are `N*365` days, not `N*365.25` — and, because the source passes
`min_periods=1`, it is null exactly when that window contains NO
observation (not whenever the series' earliest date is within N years
of `D`). -/
theorem avg_roll_spec (df : List Obs)
    (hs : df.Pairwise (fun a b => a.Date < b.Date)) (i : ℕ) (r : Obs)
    (hr : df.get? i = some r) :
    ((avg_3yr_roll df).get? i = some (windowAvg 1095 df r))
    ∧ ((avg_5yr_roll df).get? i = some (windowAvg 1825 df r))
    ∧ (windowAvg 1095 df r = none ↔
        ∀ p ∈ df, ¬ (r.Date - 1095 ≤ p.Date ∧ p.Date < r.Date))
    ∧ (windowAvg 1825 df r = none ↔
        ∀ p ∈ df, ¬ (r.Date - 1825 ≤ p.Date ∧ p.Date < r.Date)) := by
  have key : ∀ w : Int, (rollMean w [] df).get? i = some (windowAvg w df r) := by
    intro w
    rw [rollMean_get? w df [] i r hr]
    congr 1
    unfold windowAvg
    rw [List.nil_append, ← filter_window_take w df hs i r hr]
  have hnone : ∀ w : Int, (windowAvg w df r = none ↔
      ∀ p ∈ df, ¬ (r.Date - w ≤ p.Date ∧ p.Date < r.Date)) := by
    intro w
    constructor
    · intro h0 p hp hcond
      by_cases hemp : (df.filter
          (fun p => decide (r.Date - w ≤ p.Date) && decide (p.Date < r.Date))).isEmpty = true
      · have hpmem : p ∈ df.filter
            (fun p => decide (r.Date - w ≤ p.Date) && decide (p.Date < r.Date)) :=
          List.mem_filter.mpr ⟨hp, by simp [hcond.1, hcond.2]⟩
        rw [List.isEmpty_iff.mp hemp] at hpmem
        exact absurd hpmem (List.not_mem_nil p)
      · unfold windowAvg at h0
        rw [if_neg hemp] at h0
        exact Option.noConfusion h0
    · intro hall
      have hnil : df.filter
          (fun p => decide (r.Date - w ≤ p.Date) && decide (p.Date < r.Date)) = [] :=
        List.filter_eq_nil_iff.mpr (fun a ha => by
          simp only [Bool.and_eq_true, decide_eq_true_eq]
          exact hall a ha)
      unfold windowAvg
      rw [hnil]
      rfl
  exact ⟨key 1095, key 1825, hnone 1095, hnone 1825⟩

/-- Witness for C1: on the two-row series with dates 0 and 2, the second
row's `avg_3yr` is the window average over the first row, namely its `pe`. -/
theorem avg_roll_spec_witness :
    (avg_3yr_roll [⟨0, 10, 0, 1⟩, ⟨2, 20, 0, 1⟩]).get? 1
      = some (windowAvg 1095 [⟨0, 10, 0, 1⟩, ⟨2, 20, 0, 1⟩] ⟨2, 20, 0, 1⟩)
    ∧ windowAvg 1095 [⟨0, 10, 0, 1⟩, ⟨2, 20, 0, 1⟩] ⟨2, 20, 0, 1⟩ = some 10 := by
  have hs : ([⟨0, 10, 0, 1⟩, ⟨2, 20, 0, 1⟩] : List Obs).Pairwise
      (fun a b => a.Date < b.Date) := by
    refine List.Pairwise.cons ?_ (List.Pairwise.cons ?_ List.Pairwise.nil)
    · intro q hq
      rcases List.mem_singleton.mp hq with rfl
      decide
    · intro q hq
      exact absurd hq (List.not_mem_nil q)
  refine ⟨(avg_roll_spec _ hs 1 _ rfl).1, ?_⟩
  norm_num [windowAvg, List.filter]

/-- Counterexample to C1: a series starting at day 0 whose second
observation is day 1 — well within three years of the start — already gets
a non-null `avg_3yr` (the first row's `pe`), because the source's rolling
mean uses `min_periods=1` and has no insufficient-history guard; the claim
demands null there. -/
theorem avg_3yr_insufficient_history_counterexample :
    avg_3yr_roll [⟨0, 10, 0, 1⟩, ⟨1, 20, 0, 1⟩] = [none, some 10]
    ∧ (1 : Int) - 0 < 1095
    ∧ (some (10 : ℚ) ≠ (none : Option ℚ)) := by
  refine ⟨?_, by norm_num, by simp⟩
  show rollMean 1095 [] [⟨0, 10, 0, 1⟩, ⟨1, 20, 0, 1⟩] = [none, some 10]
  norm_num [rollMean, windowAvg, List.filter]
